import Mathlib

/-!
Shallow embedding of the fastexcel type-inference-and-materialization core:
`src/utils/arrow.rs` (type inference, column naming), `src/types/excelsheet.rs`
(column materialization, batch assembly, memoized height/width) and
`src/types/python/excelsheet/table.rs` (named-table extraction), together with
theorems settling the specification's claims about them.

The cell grid and its accessors belong to the external calamine collaborator;
their behaviour is modelled from the specification where noted. Machine
integers are modelled as `Nat`, with wrapping made explicit (`usizeSub1`) at
the one site where `usize` underflow matters.
-/

set_option linter.unusedVariables false

namespace FastExcel

/-- Bit pattern of an IEEE-754 double. The payload is kept opaque: no claim
inspects float arithmetic, only how float-carrying cells flow through
inference and materialization. -/
structure F64 where
  bits : Nat
deriving DecidableEq

/-- Modelled from the spec: the date/time payload of a calamine
`DataType::DateTime` cell, abstracted to the value `as_datetime` exposes. The
spec's Timestamp path "takes a cell's date/time value and stores milliseconds
since the epoch", so the payload is carried as that millisecond count; the
serial-number-to-datetime arithmetic itself lives in the external
calamine/chrono collaborators, outside this repository. -/
structure DateTimeValue where
  millis : Int
deriving DecidableEq

/-- Cell error variants of the external calamine cell model (`CellErrorType`). -/
inductive CellErrorType where
  | Div0
  | NA
  | Name
  | Null
  | Num
  | Ref
  | Value
  | GettingData
deriving DecidableEq

/-- Debug rendering of a cell error, as Rust's `{err:?}` formatting prints it. -/
def CellErrorType.debugStr : CellErrorType → String
  | .Div0 => "Div0"
  | .NA => "NA"
  | .Name => "Name"
  | .Null => "Null"
  | .Num => "Num"
  | .Ref => "Ref"
  | .Value => "Value"
  | .GettingData => "GettingData"

/-- The calamine cell variant type `DataType` (aliased `CalDataType` in the
source): a closed variant over Int, Float, String, Bool, DateTime, Error and
Empty. -/
inductive CalDataType where
  | Int (i : Int)
  | Float (f : F64)
  | String (s : String)
  | Bool (b : Bool)
  | DateTime (d : DateTimeValue)
  | Error (e : CellErrorType)
  | Empty
deriving DecidableEq

/-- Modelled from the spec: calamine's `DataType::get_bool`. The spec's
materialization contract is type-exact ("Conversion is type-exact ... there is
no cross-type coercion at materialization time"); the accessor bodies live in
the external calamine crate, outside this repository. -/
def CalDataType.get_bool (c : CalDataType) :=
  match c with
  | .Bool b => some b
  | _ => none

/-- Modelled from the spec: calamine's `DataType::get_int`, type-exact. -/
def CalDataType.get_int (c : CalDataType) :=
  match c with
  | .Int i => some i
  | _ => none

/-- Modelled from the spec: calamine's `DataType::get_float`, type-exact. -/
def CalDataType.get_float (c : CalDataType) :=
  match c with
  | .Float f => some f
  | _ => none

/-- Modelled from the spec: calamine's `DataType::get_string`, type-exact. -/
def CalDataType.get_string (c : CalDataType) :=
  match c with
  | .String s => some s
  | _ => none

/-- Modelled from the spec: calamine's `DataType::as_datetime`, yielding the
date/time value of a DateTime cell; per the spec "a cell lacking a valid
date/time becomes null" and no cross-type coercion happens at
materialization time. -/
def CalDataType.as_datetime : CalDataType → Option DateTimeValue
  | .DateTime d => some d
  | _ => none

/-- Modelled from the spec: chrono's `timestamp_millis` on the value exposed by
`as_datetime`; the Timestamp path "stores milliseconds since the epoch". -/
def DateTimeValue.timestamp_millis (d : DateTimeValue) : Int := d.millis

/-- The calamine grid `Range<CalDataType>` as the source consumes it: a
rectangular, 0-indexed cell collection with a height, a width and a
bounds-checked `get`. -/
structure CalRange where
  h : Nat
  w : Nat
  cell : Nat → Nat → CalDataType

/-- Calamine `Range::get((row, col))`: `some` cell inside the bounds, `none`
outside them. -/
def CalRange.get (r : CalRange) (row col : Nat) : Option CalDataType :=
  if row < r.h ∧ col < r.w then some (r.cell row col) else none

/-- Calamine `Range::height()`. -/
def CalRange.height (r : CalRange) : Nat := r.h

/-- Arrow `DataType` restricted to the constructors the source mentions, plus
`Date32` and `Float32` standing in for the remaining Arrow datatypes, all of
which fall into batch assembly's catch-all `unreachable!()` arm. -/
inductive ArrowDataType where
  | Int64
  | Float64
  | Utf8
  | Boolean
  | Date64
  | Null
  | Date32
  | Float32
deriving DecidableEq

/-- Arrow `Field`: a name, a datatype and a nullability flag (always true in
the schemas this program builds). -/
structure Field where
  name : String
  dataType : ArrowDataType
  nullable : Bool
deriving DecidableEq

/-- Least-significant-first decimal digits of a natural number. Structured on
fuel so that evaluation is definitional; fuel `n` always suffices because
`n / 10 < n` for `n ≠ 0`. -/
def toDigitsRevAux : Nat → Nat → List Nat
  | 0, _ => []
  | fuel + 1, n => if n = 0 then [] else n % 10 :: toDigitsRevAux fuel (n / 10)

/-- Least-significant-first decimal digits, with sufficient fuel supplied. -/
def toDigitsRev (n : Nat) : List Nat := toDigitsRevAux n n

/-- Decimal rendering of a natural number, exactly as Rust's `format!` renders
a `usize`. -/
def natDecimal (n : Nat) : String :=
  if n = 0 then "0"
  else String.mk ((toDigitsRev n).reverse.map (fun d => Char.ofNat (48 + d)))

/-- Numeric value of a least-significant-first digit list; the inverse used to
prove `natDecimal` injective. -/
def ofRev : List Nat → Nat
  | [] => 0
  | d :: ds => 10 * ofRev ds + d

/-- Candidate alias at a given recursion depth of `alias_for_name`: depth 0 is
the raw name, depth `d > 0` appends `_d`, mirroring
`format!("{name}_{depth}")`. -/
def aliasAt (name : String) (depth : Nat) : String :=
  if depth = 0 then name else name ++ "_" ++ natDecimal depth

/-- The collision test `fields.iter().any(|f| f.name() == &alias)` from
`alias_for_name`. -/
def collides (cand : String) (fields : List Field) : Bool :=
  fields.any (fun f => f.name == cand)

/-- The inner recursion `rec` of `alias_for_name`, structured on fuel: `none`
means the fuel ran out, which never happens at fuel `fields.length + 1`
(proved below), because the finite field list admits only finitely many
colliding aliases. -/
def aliasRecO (name : String) (fields : List Field) : Nat → Nat → Option String
  | 0, _ => none
  | fuel + 1, depth =>
    let cand := aliasAt name depth
    if collides cand fields then aliasRecO name fields fuel (depth + 1)
    else some cand

/-- `alias_for_name` from the source: the first alias, in depth order starting
at the raw name, that does not collide with an already-finalized field name. -/
def alias_for_name (name : String) (fields : List Field) : String :=
  (aliasRecO name fields (fields.length + 1) 0).getD name

/-- `get_arrow_column_type` from the source: look up the sampled cell and map
its variant to an Arrow datatype; an absent cell or an Error-variant cell
makes inference fail. -/
def get_arrow_column_type (data : CalRange) (row col : Nat) :
    Except String ArrowDataType :=
  match data.get row col with
  | none =>
    .error ("Could not retrieve data at (" ++ natDecimal row ++ "," ++ natDecimal col ++ ")")
  | some (.Int _) => .ok .Int64
  | some (.Float _) => .ok .Float64
  | some (.String _) => .ok .Utf8
  | some (.Bool _) => .ok .Boolean
  | some (.DateTime _) => .ok .Date64
  | some (.Error e) => .error ("Error in calamine cell: " ++ e.debugStr)
  | some .Empty => .ok .Null

/-- The spec's inference table (one row per sampled-cell variant), stated from
the spec's words so it can be compared with `get_arrow_column_type`: Integer
to Integer, Float to Float, Text to Text, Boolean to Boolean, DateTime to the
millisecond-precision timestamp column type, Empty to Null, and Error makes
inference fail. -/
def specInferenceTable : CalDataType → Except String ArrowDataType
  | .Int _ => .ok .Int64
  | .Float _ => .ok .Float64
  | .String _ => .ok .Utf8
  | .Bool _ => .ok .Boolean
  | .DateTime _ => .ok .Date64
  | .Error e => .error ("Error in calamine cell: " ++ e.debugStr)
  | .Empty => .ok .Null

/-- The loop of `arrow_schema_from_column_names_and_range`: walk the column
names left to right, infer each column's type from the sampled cell, and push
a collision-deduplicated field onto the accumulator. -/
def buildSchemaFields (range : CalRange) (row_idx : Nat) :
    List String → Nat → List Field → Except String (List Field)
  | [], _, fields => .ok fields
  | name :: rest, col_idx, fields =>
    match get_arrow_column_type range row_idx col_idx with
    | .error e => .error e
    | .ok col_type =>
      buildSchemaFields range row_idx rest (col_idx + 1)
        (fields ++ [{ name := alias_for_name name fields
                      dataType := col_type
                      nullable := true }])

/-- `arrow_schema_from_column_names_and_range` from the source; the schema is
its ordered field list. -/
def arrow_schema_from_column_names_and_range (range : CalRange)
    (column_names : List String) (row_idx : Nat) : Except String (List Field) :=
  buildSchemaFields range row_idx column_names 0 []

/-- Rust's iterator `(1..height)`: the data-row indices a column materializer
walks (empty when `height` is 0 or 1). -/
def dataRows (height : Nat) : List Nat := List.range' 1 (height - 1)

/-- `create_boolean_array` from the source: one `Option` element per data row,
null for an absent cell or a cell `get_bool` rejects. -/
def create_boolean_array (data : CalRange) (col height : Nat) : List (Option Bool) :=
  (dataRows height).map (fun row => (data.get row col).bind CalDataType.get_bool)

/-- `create_int_array` from the source. -/
def create_int_array (data : CalRange) (col height : Nat) : List (Option Int) :=
  (dataRows height).map (fun row => (data.get row col).bind CalDataType.get_int)

/-- `create_float_array` from the source. -/
def create_float_array (data : CalRange) (col height : Nat) : List (Option F64) :=
  (dataRows height).map (fun row => (data.get row col).bind CalDataType.get_float)

/-- `create_string_array` from the source. -/
def create_string_array (data : CalRange) (col height : Nat) : List (Option String) :=
  (dataRows height).map (fun row => (data.get row col).bind CalDataType.get_string)

/-- `create_date_array` from the source: the value of `as_datetime`, mapped
through `timestamp_millis`, so a non-null element is a millisecond count. -/
def create_date_array (data : CalRange) (col height : Nat) : List (Option Int) :=
  (dataRows height).map (fun row =>
    ((data.get row col).bind CalDataType.as_datetime).map DateTimeValue.timestamp_millis)

/-- The typed, nullable Arrow arrays batch assembly builds; `nulls` models
`NullArray::new`, which stores only a length. -/
inductive ColumnArray where
  | bools (xs : List (Option Bool))
  | ints (xs : List (Option Int))
  | floats (xs : List (Option F64))
  | strs (xs : List (Option String))
  | dates (xs : List (Option Int))
  | nulls (len : Nat)
deriving DecidableEq

/-- Length of a materialized array. -/
def ColumnArray.len : ColumnArray → Nat
  | .bools xs => xs.length
  | .ints xs => xs.length
  | .floats xs => xs.length
  | .strs xs => xs.length
  | .dates xs => xs.length
  | .nulls n => n

/-- Rust `usize` subtraction of 1 in a release build: wraps modulo `2 ^ 64`.
The source computes `NullArray::new(height - 1)` with this arithmetic and no
zero guard (a debug build panics there instead). -/
def usizeSub1 (height : Nat) : Nat := (height + (2 ^ 64 - 1)) % 2 ^ 64

/-- One arm of the `match field.data_type()` inside the
`TryFrom<&ExcelSheet> for RecordBatch` impl; `none` models the catch-all
`unreachable!()` arm, which aborts the process instead of returning an error. -/
def buildColumn (data : CalRange) (height col_idx : Nat) :
    ArrowDataType → Option ColumnArray
  | .Boolean => some (.bools (create_boolean_array data col_idx height))
  | .Int64 => some (.ints (create_int_array data col_idx height))
  | .Float64 => some (.floats (create_float_array data col_idx height))
  | .Utf8 => some (.strs (create_string_array data col_idx height))
  | .Date64 => some (.dates (create_date_array data col_idx height))
  | .Null => some (.nulls (usizeSub1 height))
  | _ => none

/-- The enumerated map over the schema's fields inside the `TryFrom` impl; a
panicking arm makes the whole assembly abort (`none`). -/
def buildColumns (data : CalRange) (height : Nat) :
    Nat → List Field → Option (List (String × ColumnArray))
  | _, [] => some []
  | col_idx, f :: rest =>
    match buildColumn data height col_idx f.dataType with
    | none => none
    | some arr =>
      match buildColumns data height (col_idx + 1) rest with
      | none => none
      | some tail => some ((f.name, arr) :: tail)

/-- A record batch: the zipped (name, array) columns. -/
structure RecordBatchM where
  columns : List (String × ColumnArray)
deriving DecidableEq

/-- Arrow's `RecordBatch::try_from_iter` validation (via `try_new`): at least
one column, and every column's length equal to the first column's length.
The inner arrow error text is abstracted; the source wraps whatever arrow
reports in the anyhow context shown in `tryFromExcelSheet`. -/
def recordBatchTryFromIter (cols : List (String × ColumnArray)) :
    Except String RecordBatchM :=
  match cols with
  | [] => .error "must either specify a row count or at least one column"
  | c :: rest =>
    if rest.all (fun x => x.2.len == c.2.len) then .ok ⟨cols⟩
    else .error "all columns in a record batch must have the same length"

/-- The `_ExcelSheet` pyclass: name, schema, grid data and the two memoized
counters (the source's `height`/`width` fields, here `heightCache` and
`widthCache` so the getter methods can keep the source names). -/
structure ExcelSheet where
  name : String
  schema : List Field
  data : CalRange
  heightCache : Option Nat
  widthCache : Option Nat

/-- `ExcelSheet::new`: both memoized counters start unset. -/
def ExcelSheet.new (name : String) (schema : List Field) (data : CalRange) :
    ExcelSheet :=
  { name := name, schema := schema, data := data
    heightCache := none, widthCache := none }

/-- Outcome of `RecordBatch::try_from(&ExcelSheet)`: a batch, a returned
error, or an aborted process (the `unreachable!()` arm). -/
inductive RBOutcome where
  | ok (rb : RecordBatchM)
  | err (msg : String)
  | panicked
deriving DecidableEq

/-- The `TryFrom<&ExcelSheet> for RecordBatch` impl: materialize one column
per schema field against the grid's actual height, then assemble, attaching
the sheet-naming context to any assembly error. -/
def tryFromExcelSheet (sheet : ExcelSheet) : RBOutcome :=
  let height := sheet.data.height
  match buildColumns sheet.data height 0 sheet.schema with
  | none => .panicked
  | some cols =>
    match recordBatchTryFromIter cols with
    | .ok rb => .ok rb
    | .error e =>
      .err ("Could not convert sheet " ++ sheet.name ++ " to RecordBatch: " ++ e)

/-- The memoizing `width` getter: returns the cached value, or computes the
schema's field count, caches it and returns it. -/
def ExcelSheet.width (s : ExcelSheet) : Nat × ExcelSheet :=
  match s.widthCache with
  | some w => (w, s)
  | none =>
    let w := s.schema.length
    (w, { s with widthCache := some w })

/-- The memoizing `height` getter: number of data rows, the grid's row count
minus the header row, guarded to 0 for a rowless grid. -/
def ExcelSheet.height (s : ExcelSheet) : Nat × ExcelSheet :=
  match s.heightCache with
  | some h => (h, s)
  | none =>
    let data_height := s.data.height
    let h := if data_height > 0 then data_height - 1 else 0
    (h, { s with heightCache := some h })

/-- A named table resolved by calamine (`Table<Data>`); the claims treat it as
an opaque payload. -/
structure TableData where
  tableName : String
  sheetName : String
  columnNames : List String

/-- An xlsx workbook as the table-extraction code consumes it: `load_tables`
(its failure carried as `some` error), `table_names`, `table_names_in_sheet`
and `table_by_name`, all implemented by the external calamine collaborator. -/
structure XlsxWorkbook where
  loadTablesError : Option String
  tableNames : List String
  tableNamesInSheet : String → List String
  tableByName : String → Except String TableData

/-- Calamine `Sheets`: the workbook container variants. Only the xlsx payload
matters to the table-extraction code, so the other variants carry none. -/
inductive Sheets where
  | Xlsx (x : XlsxWorkbook)
  | Xls
  | Xlsb
  | Ods

/-- Modelled from the spec: the error kinds of the repository's `error`
module, which is not among the provided sources; only the constructors the
table code names are modelled. -/
inductive FastExcelErrorKind where
  | Internal (msg : String)
  | XlsxError (e : String)
deriving DecidableEq

/-- Modelled from the spec: `FastExcelError`, an error kind plus the context
strings `with_context` attaches ("every error carries ... context as it is
surfaced to the caller"). -/
structure FastExcelError where
  kind : FastExcelErrorKind
  context : List String
deriving DecidableEq

/-- Modelled from the spec: `.into()` from an error kind to an error carrying
no context yet. -/
def FastExcelErrorKind.intoError (k : FastExcelErrorKind) : FastExcelError :=
  { kind := k, context := [] }

/-- `extract_table_names` from the source: the outer `Except` holds failures
propagated with `?`, the inner one is the match's `FastExcelResult` value.
Any non-Xlsx container is answered with the Internal feature-limitation
error and no name list. -/
def extract_table_names (sheets : Sheets) (sheet_name : Option String) :
    Except FastExcelError (Except FastExcelError (List String)) :=
  match sheets with
  | .Xlsx x =>
    match x.loadTablesError with
    | some e => .error (FastExcelErrorKind.XlsxError e).intoError
    | none =>
      match sheet_name with
      | none => .ok (.ok x.tableNames)
      | some sn => .ok (.ok (x.tableNamesInSheet sn))
  | _ =>
    .ok (.error (FastExcelErrorKind.Internal
      "Currently only XLSX files are supported for tables").intoError)

/-- `extract_table_range` from the source: resolve a table by name on an xlsx
workbook (a lookup failure is propagated outward with the table-naming
context); any non-Xlsx container is answered with the Internal
feature-limitation error and no range. -/
def extract_table_range (name : String) (sheets : Sheets) :
    Except FastExcelError (Except FastExcelError TableData) :=
  match sheets with
  | .Xlsx x =>
    match x.loadTablesError with
    | some e => .error (FastExcelErrorKind.XlsxError e).intoError
    | none =>
      match x.tableByName name with
      | .error err =>
        .error { kind := .XlsxError err
                 context := ["Could not load table named " ++ name] }
      | .ok t => .ok (.ok t)
  | _ =>
    .ok (.error (FastExcelErrorKind.Internal
      "Currently only XLSX files are supported for tables").intoError)

/-- The Arrow datatypes batch assembly's match handles; everything else falls
into the catch-all `unreachable!()` arm. -/
def handledType : ArrowDataType → Bool
  | .Int64 => true
  | .Float64 => true
  | .Utf8 => true
  | .Boolean => true
  | .Date64 => true
  | .Null => true
  | _ => false

/-- Diverging array lengths among assembled columns. -/
def lengthsMismatch (cols : List (String × ColumnArray)) : Prop :=
  ∃ p ∈ cols, ∃ q ∈ cols, p.2.len ≠ q.2.len

/-- Concrete grid for checking materialization: one column whose data rows
hold a Bool, an Int and a DateTime cell under a text header. -/
def c1Grid : CalRange :=
  { h := 4, w := 1
    cell := fun r _ =>
      if r == 1 then .Bool true
      else if r == 2 then .Int 7
      else if r == 3 then .DateTime ⟨86400000⟩
      else .String "header" }

/-- Concrete grid for checking inference: an Int cell in the sample row. -/
def c2Grid : CalRange :=
  { h := 2, w := 1, cell := fun r _ => if r == 1 then .Int 7 else .String "h" }

/-- Concrete sheet with a rowless grid and a Null-typed column: the input on
which `NullArray::new(height - 1)` underflows. -/
def c3Sheet : ExcelSheet :=
  ExcelSheet.new "empty" [{ name := "a", dataType := .Null, nullable := true }]
    { h := 0, w := 1, cell := fun _ _ => .Empty }

/-- Concrete grid for checking column naming: two Int columns. -/
def c4Grid : CalRange :=
  { h := 2, w := 2, cell := fun r _ => if r == 1 then .Int 1 else .String "h" }

/-- Concrete sheet whose schema declares a datatype outside the handled set,
driving assembly into the catch-all arm. -/
def c5Sheet : ExcelSheet :=
  ExcelSheet.new "s" [{ name := "a", dataType := .Date32, nullable := true }]
    { h := 2, w := 1, cell := fun _ _ => .Empty }

/-- Concrete sheet whose columns materialize with diverging lengths: a
Null-typed column (wrapped length) next to an Int column on a rowless grid. -/
def c5DivSheet : ExcelSheet :=
  ExcelSheet.new "d"
    [{ name := "a", dataType := .Null, nullable := true },
     { name := "b", dataType := .Int64, nullable := true }]
    { h := 0, w := 2, cell := fun _ _ => .Empty }

/-- Concrete grid with an Error-variant cell at row 1, column 2. -/
def c6Grid : CalRange :=
  { h := 3, w := 3
    cell := fun r c => if r == 1 && c == 2 then .Error .NA else .Empty }

/-- Concrete grid from which inference produces an Int64 schema. -/
def c9Grid : CalRange :=
  { h := 2, w := 1, cell := fun r _ => if r == 1 then .Int 1 else .String "h" }

/-! Theorems. First the decimal-rendering and alias machinery backing the
Column Namer claims, then the claim theorems in order. -/

theorem ofRev_toDigitsRevAux (fuel : Nat) :
    ∀ n, n ≤ fuel → ofRev (toDigitsRevAux fuel n) = n := by
  induction fuel with
  | zero =>
    intro n hn
    have : n = 0 := Nat.le_zero.mp hn
    subst this
    rfl
  | succ fuel ih =>
    intro n hn
    by_cases h0 : n = 0
    · subst h0; simp [toDigitsRevAux, ofRev]
    · have hdiv : n / 10 ≤ fuel := by
        have : n / 10 < n := Nat.div_lt_self (Nat.pos_of_ne_zero h0) (by norm_num)
        omega
      simp only [toDigitsRevAux, if_neg h0, ofRev, ih _ hdiv]
      omega

theorem ofRev_toDigitsRev (n : Nat) : ofRev (toDigitsRev n) = n :=
  ofRev_toDigitsRevAux n n le_rfl

theorem toDigitsRevAux_lt_ten (fuel : Nat) :
    ∀ n d, d ∈ toDigitsRevAux fuel n → d < 10 := by
  induction fuel with
  | zero => intro n d hd; simp [toDigitsRevAux] at hd
  | succ fuel ih =>
    intro n d hd
    by_cases h0 : n = 0
    · subst h0; simp [toDigitsRevAux] at hd
    · simp only [toDigitsRevAux, if_neg h0, List.mem_cons] at hd
      rcases hd with h | h
      · subst h; exact Nat.mod_lt _ (by norm_num)
      · exact ih _ _ h

theorem digit_char_inj :
    ∀ d < 10, ∀ e < 10, Char.ofNat (48 + d) = Char.ofNat (48 + e) → d = e := by
  decide

theorem map_digit_char_inj :
    ∀ l1 l2 : List Nat, (∀ d ∈ l1, d < 10) → (∀ d ∈ l2, d < 10) →
      l1.map (fun d => Char.ofNat (48 + d)) = l2.map (fun d => Char.ofNat (48 + d)) →
      l1 = l2 := by
  intro l1
  induction l1 with
  | nil =>
    intro l2 _ _ h
    cases l2 with
    | nil => rfl
    | cons b bs => simp at h
  | cons a as ih =>
    intro l2 h1 h2 h
    cases l2 with
    | nil => simp at h
    | cons b bs =>
      simp only [List.map_cons, List.cons.injEq] at h
      have hab : a = b :=
        digit_char_inj a (h1 a (by simp)) b (h2 b (by simp)) h.1
      subst hab
      have htl : as = bs :=
        ih bs (fun d hd => h1 d (by simp [hd])) (fun d hd => h2 d (by simp [hd])) h.2
      rw [htl]

theorem natDecimal_eq_zero_str (n : Nat) (h : natDecimal n = "0") : n = 0 := by
  by_contra hn
  rw [natDecimal, if_neg hn] at h
  have hd := congrArg String.data h
  have hz : ("0" : String).data = [Char.ofNat 48] := by decide
  rw [hz] at hd
  rcases hr : (toDigitsRev n).reverse with _ | ⟨d, ds⟩
  · rw [hr] at hd; simp at hd
  · rw [hr] at hd
    simp only [List.map_cons, List.cons.injEq] at hd
    have hds : ds = [] := List.map_eq_nil_iff.mp hd.2
    have hdlt : d < 10 := by
      have hmem : d ∈ toDigitsRev n := by
        have : d ∈ (toDigitsRev n).reverse := by rw [hr]; simp
        exact List.mem_reverse.mp this
      exact toDigitsRevAux_lt_ten n n d hmem
    have hd0 : d = 0 := by
      refine (digit_char_inj 0 (by norm_num) d hdlt ?_).symm
      simpa using hd.1.symm
    have hlist : toDigitsRev n = [0] := by
      have : (toDigitsRev n).reverse = [0] := by rw [hr, hds, hd0]
      simpa [List.reverse_eq_iff] using this
    have := ofRev_toDigitsRev n
    rw [hlist] at this
    simp [ofRev] at this
    exact hn this.symm

theorem natDecimal_inj : Function.Injective natDecimal := by
  intro m n h
  by_cases hm : m = 0
  · subst hm
    exact (natDecimal_eq_zero_str n h.symm).symm
  by_cases hn : n = 0
  · subst hn
    exact natDecimal_eq_zero_str m h
  rw [natDecimal, if_neg hm, natDecimal, if_neg hn] at h
  have hd := congrArg String.data h
  simp only [← List.map_reverse] at hd
  have hrev :
      (toDigitsRev m).reverse.map (fun d => Char.ofNat (48 + d)) =
      (toDigitsRev n).reverse.map (fun d => Char.ofNat (48 + d)) := hd
  have hlists : (toDigitsRev m).reverse = (toDigitsRev n).reverse := by
    refine map_digit_char_inj _ _ ?_ ?_ hrev
    · intro d hdm
      exact toDigitsRevAux_lt_ten m m d (List.mem_reverse.mp hdm)
    · intro d hdn
      exact toDigitsRevAux_lt_ten n n d (List.mem_reverse.mp hdn)
  have hdig : toDigitsRev m = toDigitsRev n := List.reverse_injective hlists
  have := ofRev_toDigitsRev m
  rw [hdig, ofRev_toDigitsRev n] at this
  exact this.symm

theorem string_append_cancel_left {a b c : String} (h : a ++ b = a ++ c) :
    b = c := by
  have hd : (a ++ b).data = (a ++ c).data := by rw [h]
  simp only [String.data_append] at hd
  exact String.ext (List.append_cancel_left hd)

theorem natDecimal_length_pos (n : Nat) : 0 < (natDecimal n).length := by
  cases n with
  | zero => decide
  | succ k =>
    rw [natDecimal, if_neg (Nat.succ_ne_zero k)]
    show 0 < (String.mk _).length
    simp [String.length, toDigitsRev, toDigitsRevAux]

theorem aliasAt_inj (name : String) :
    ∀ d e, aliasAt name d = aliasAt name e → d = e := by
  have hlen : ∀ d : Nat,
      (aliasAt name (d + 1)).length = name.length + 1 + (natDecimal (d + 1)).length := by
    intro d
    rw [aliasAt, if_neg (Nat.succ_ne_zero d), String.length_append, String.length_append,
      show ("_" : String).length = 1 from rfl]
  intro d e h
  match d, e with
  | 0, 0 => rfl
  | 0, e + 1 =>
    exfalso
    have h0 : aliasAt name 0 = name := by rw [aliasAt, if_pos rfl]
    have := congrArg String.length (h0 ▸ h)
    rw [hlen e] at this
    have := natDecimal_length_pos (e + 1)
    omega
  | d + 1, 0 =>
    exfalso
    have h0 : aliasAt name 0 = name := by rw [aliasAt, if_pos rfl]
    have := congrArg String.length (h0 ▸ h.symm)
    rw [hlen d] at this
    have := natDecimal_length_pos (d + 1)
    omega
  | d + 1, e + 1 =>
    rw [aliasAt, if_neg (Nat.succ_ne_zero d), aliasAt, if_neg (Nat.succ_ne_zero e)] at h
    have := string_append_cancel_left (a := name ++ "_") h
    exact natDecimal_inj this

theorem collides_eq_true_iff (cand : String) (fields : List Field) :
    collides cand fields = true ↔ cand ∈ fields.map Field.name := by
  simp only [collides, List.any_eq_true, List.mem_map, beq_iff_eq]

theorem collides_eq_false_iff (cand : String) (fields : List Field) :
    collides cand fields = false ↔ cand ∉ fields.map Field.name := by
  rw [Bool.eq_false_iff, ne_eq, collides_eq_true_iff]

theorem exists_depth_not_colliding (name : String) (fields : List Field) :
    ∃ d, d ≤ fields.length ∧ collides (aliasAt name d) fields = false := by
  by_contra hc
  push_neg at hc
  have hall : ∀ d : Fin (fields.length + 1),
      aliasAt name d.val ∈ fields.map Field.name := by
    intro d
    have hd := hc d.val (Nat.lt_succ_iff.mp d.isLt)
    rw [← collides_eq_true_iff]
    cases h : collides (aliasAt name d.val) fields with
    | true => rfl
    | false => exact absurd h hd
  have hmaps : ∀ d ∈ (Finset.univ : Finset (Fin (fields.length + 1))),
      aliasAt name d.val ∈ (fields.map Field.name).toFinset := by
    intro d _
    rw [List.mem_toFinset]
    exact hall d
  have hinj : Set.InjOn (fun d : Fin (fields.length + 1) => aliasAt name d.val)
      (Finset.univ : Finset (Fin (fields.length + 1))) := by
    intro a _ b _ hab
    exact Fin.ext (aliasAt_inj name a.val b.val hab)
  have hcard := Finset.card_le_card_of_injOn _ hmaps hinj
  have hsmall := (fields.map Field.name).toFinset_card_le
  simp only [Finset.card_univ, Fintype.card_fin, List.length_map] at hcard hsmall
  omega

theorem aliasRecO_some_of_exists (name : String) (fields : List Field) :
    ∀ fuel depth,
      (∃ d, depth ≤ d ∧ d < depth + fuel ∧ collides (aliasAt name d) fields = false) →
      ∃ a, aliasRecO name fields fuel depth = some a := by
  intro fuel
  induction fuel with
  | zero =>
    rintro depth ⟨d, h1, h2, _⟩
    omega
  | succ fuel ih =>
    rintro depth ⟨d, h1, h2, h3⟩
    cases hco : collides (aliasAt name depth) fields with
    | false => exact ⟨aliasAt name depth, by simp [aliasRecO, hco]⟩
    | true =>
      have hne : d ≠ depth := by
        intro he
        rw [he] at h3
        rw [h3] at hco
        simp at hco
      obtain ⟨a, ha⟩ := ih (depth + 1) ⟨d, by omega, by omega, h3⟩
      exact ⟨a, by simp [aliasRecO, hco, ha]⟩

theorem aliasRecO_some_not_collides (name : String) (fields : List Field) :
    ∀ fuel depth a, aliasRecO name fields fuel depth = some a →
      collides a fields = false := by
  intro fuel
  induction fuel with
  | zero => intro depth a h; simp [aliasRecO] at h
  | succ fuel ih =>
    intro depth a h
    simp only [aliasRecO] at h
    cases hco : collides (aliasAt name depth) fields with
    | true =>
      rw [hco, if_pos rfl] at h
      exact ih (depth + 1) a h
    | false =>
      rw [hco] at h
      simp at h
      rw [← h]
      exact hco

theorem alias_for_name_not_collides (name : String) (fields : List Field) :
    collides (alias_for_name name fields) fields = false := by
  obtain ⟨d, hd, hcol⟩ := exists_depth_not_colliding name fields
  obtain ⟨a, ha⟩ := aliasRecO_some_of_exists name fields (fields.length + 1) 0
    ⟨d, Nat.zero_le d, by omega, hcol⟩
  rw [alias_for_name, ha, Option.getD_some]
  exact aliasRecO_some_not_collides name fields (fields.length + 1) 0 a ha

theorem alias_for_name_eq_self (name : String) (fields : List Field)
    (h : collides name fields = false) : alias_for_name name fields = name := by
  have h0 : aliasAt name 0 = name := by rw [aliasAt, if_pos rfl]
  rw [alias_for_name]
  simp [aliasRecO, h0, h]

/-- C10: for every candidate name and every finite list of already-finalized
fields, the collision-resolving recursion of `alias_for_name` terminates: a
fuel budget of `fields.length + 1` depth increments always suffices to reach
a non-colliding alias, because the finitely many field names admit only
finitely many colliding aliases and distinct depths yield distinct aliases. -/
theorem c10_alias_for_name_terminates (name : String) (fields : List Field) :
    ∃ a, aliasRecO name fields (fields.length + 1) 0 = some a ∧
      alias_for_name name fields = a := by
  obtain ⟨d, hd, hcol⟩ := exists_depth_not_colliding name fields
  obtain ⟨a, ha⟩ := aliasRecO_some_of_exists name fields (fields.length + 1) 0
    ⟨d, Nat.zero_le d, by omega, hcol⟩
  exact ⟨a, ha, by rw [alias_for_name, ha, Option.getD_some]⟩

theorem buildSchemaFields_nodup (range : CalRange) (row_idx : Nat) :
    ∀ (names : List String) (col : Nat) (fields out : List Field),
      (fields.map Field.name).Nodup →
      buildSchemaFields range row_idx names col fields = .ok out →
      (out.map Field.name).Nodup := by
  intro names
  induction names with
  | nil =>
    intro col fields out hnd h
    simp only [buildSchemaFields, Except.ok.injEq] at h
    rw [← h]
    exact hnd
  | cons name rest ih =>
    intro col fields out hnd h
    simp only [buildSchemaFields] at h
    split at h
    next e heq => simp at h
    next col_type heq =>
      refine ih (col + 1) _ out ?_ h
      rw [List.map_append]
      simp only [List.map_cons, List.map_nil]
      rw [List.nodup_append]
      refine ⟨hnd, List.nodup_singleton _, ?_⟩
      intro a ha hb
      simp only [List.mem_singleton] at hb
      have hnc := alias_for_name_not_collides name fields
      rw [collides_eq_false_iff] at hnc
      exact hnc (hb ▸ ha)

theorem buildSchemaFields_preserves (range : CalRange) (row_idx : Nat) :
    ∀ (names : List String) (col : Nat) (fields out : List Field),
      names.Nodup →
      (∀ n ∈ names, n ∉ fields.map Field.name) →
      buildSchemaFields range row_idx names col fields = .ok out →
      out.map Field.name = fields.map Field.name ++ names := by
  intro names
  induction names with
  | nil =>
    intro col fields out _ _ h
    simp only [buildSchemaFields, Except.ok.injEq] at h
    rw [← h]
    simp
  | cons name rest ih =>
    intro col fields out hnd hmem h
    simp only [buildSchemaFields] at h
    split at h
    next e heq => simp at h
    next col_type heq =>
      have hself : alias_for_name name fields = name := by
        apply alias_for_name_eq_self
        rw [collides_eq_false_iff]
        exact hmem name (by simp)
      have hmem' : ∀ n ∈ rest, n ∉
          (fields ++ [(⟨alias_for_name name fields, col_type, true⟩ : Field)]).map
            Field.name := by
        intro n hn
        rw [List.map_append]
        simp only [List.map_cons, List.map_nil, List.mem_append,
          List.mem_singleton]
        push_neg
        refine ⟨hmem n (by simp [hn]), ?_⟩
        rw [hself]
        intro he
        exact (List.nodup_cons.mp hnd).1 (he ▸ hn)
      have hrest := ih (col + 1) _ out (List.nodup_cons.mp hnd).2 hmem' h
      rw [hrest, List.map_append]
      simp [hself]

/-- C4: for every ordered sequence of raw header names, a successfully built
schema has pairwise-distinct field names (each produced left-to-right by
`alias_for_name`, which appends `_1`, `_2`, ... until the candidate no longer
collides with a previously finalized name), and when the input names are
already pairwise distinct the output names equal the input unchanged. -/
theorem c4_schema_names_unique (range : CalRange) (names : List String)
    (row_idx : Nat) (out : List Field)
    (h : arrow_schema_from_column_names_and_range range names row_idx = .ok out) :
    (out.map Field.name).Nodup ∧ (names.Nodup → out.map Field.name = names) := by
  constructor
  · exact buildSchemaFields_nodup range row_idx names 0 [] out (by simp) h
  · intro hnd
    have := buildSchemaFields_preserves range row_idx names 0 [] out hnd (by simp) h
    simpa using this

/-- Witness for C4: duplicate headers `["id", "id"]` over an Int sample row
yield the deduplicated, collision-free names `["id", "id_1"]`. -/
theorem c4_schema_names_unique_witness :
    arrow_schema_from_column_names_and_range c4Grid ["id", "id"] 1 =
      .ok [{ name := "id", dataType := .Int64, nullable := true },
           { name := "id_1", dataType := .Int64, nullable := true }] ∧
    (([{ name := "id", dataType := .Int64, nullable := true },
       { name := "id_1", dataType := .Int64, nullable := true }] : List Field).map
        Field.name).Nodup ∧
    ((["id", "id"] : List String).Nodup →
      ([{ name := "id", dataType := .Int64, nullable := true },
        { name := "id_1", dataType := .Int64, nullable := true }] : List Field).map
        Field.name = ["id", "id"]) :=
  ⟨rfl, c4_schema_names_unique c4Grid ["id", "id"] 1 _ rfl⟩

/-- C2: for every grid, sample coordinate and sampled cell, inference maps the
cell's variant exactly per the table: Integer to Int64, Float to Float64,
Text to Utf8, Boolean to Boolean, DateTime to the Date64 tag (realized as a
millisecond-precision timestamp array by `create_date_array`), Empty to Null,
and an Error-variant cell makes inference fail. -/
theorem c2_inference_maps_variants (data : CalRange) (row col : Nat)
    (cell : CalDataType) (h : data.get row col = some cell) :
    get_arrow_column_type data row col = specInferenceTable cell := by
  unfold get_arrow_column_type
  simp only [h]
  cases cell <;> rfl

/-- Witness for C2 at a concrete grid whose sample cell is `Int 7`. -/
theorem c2_inference_maps_variants_witness :
    c2Grid.get 1 0 = some (CalDataType.Int 7) ∧
    get_arrow_column_type c2Grid 1 0 = specInferenceTable (CalDataType.Int 7) :=
  ⟨rfl, c2_inference_maps_variants c2Grid 1 0 (CalDataType.Int 7) rfl⟩

/-- Counterexample for C6: at the concrete grid whose sampled cell (row 1,
column 2) is an Error cell, inference fails, but the produced message is
exactly "Error in calamine cell: NA", which contains no digit at all and so
cannot identify row 1 or column 2; the coordinate-bearing message exists only
on the out-of-bounds lookup path. -/
theorem c6_error_cell_message_lacks_coordinates :
    get_arrow_column_type c6Grid 1 2 = .error "Error in calamine cell: NA" ∧
    ("Error in calamine cell: NA".data.all (fun ch => !ch.isDigit)) = true := by
  constructor
  · rfl
  · decide

/-- C6 (amended): for every grid whose sampled cell is an Error-variant cell,
inference fails, and the error names the cell's error value only — the
offending row and column do not appear in it. -/
theorem c6_error_cell_fails_with_error_value (data : CalRange) (row col : Nat)
    (e : CellErrorType) (h : data.get row col = some (.Error e)) :
    get_arrow_column_type data row col =
      .error ("Error in calamine cell: " ++ e.debugStr) := by
  unfold get_arrow_column_type
  rw [h]

/-- Witness for the amended C6 at the concrete Error-cell grid. -/
theorem c6_error_cell_fails_witness :
    c6Grid.get 1 2 = some (CalDataType.Error .NA) ∧
    get_arrow_column_type c6Grid 1 2 =
      .error ("Error in calamine cell: " ++ CellErrorType.NA.debugStr) :=
  ⟨rfl, c6_error_cell_fails_with_error_value c6Grid 1 2 .NA rfl⟩

theorem get_arrow_column_type_handled (data : CalRange) (row col : Nat)
    (t : ArrowDataType) (h : get_arrow_column_type data row col = .ok t) :
    handledType t = true := by
  unfold get_arrow_column_type at h
  cases hg : data.get row col with
  | none => rw [hg] at h; simp at h
  | some cell =>
    rw [hg] at h
    cases cell <;> cases h <;> rfl

theorem buildSchemaFields_handled (range : CalRange) (row_idx : Nat) :
    ∀ (names : List String) (col : Nat) (fields out : List Field),
      (∀ f ∈ fields, handledType f.dataType = true) →
      buildSchemaFields range row_idx names col fields = .ok out →
      ∀ f ∈ out, handledType f.dataType = true := by
  intro names
  induction names with
  | nil =>
    intro col fields out hf h
    simp only [buildSchemaFields, Except.ok.injEq] at h
    rw [← h]
    exact hf
  | cons name rest ih =>
    intro col fields out hf h
    simp only [buildSchemaFields] at h
    split at h
    next e heq => simp at h
    next col_type heq =>
      refine ih (col + 1) _ out ?_ h
      intro f hfm
      rw [List.mem_append] at hfm
      rcases hfm with hin | hin
      · exact hf f hin
      · simp only [List.mem_singleton] at hin
        rw [hin]
        exact get_arrow_column_type_handled range row_idx col col_type heq

theorem handled_buildColumn_isSome (data : CalRange) (height col : Nat)
    (t : ArrowDataType) (h : handledType t = true) :
    ∃ arr, buildColumn data height col t = some arr := by
  cases t <;> simp [buildColumn] <;> simp [handledType] at h

theorem buildColumns_isSome (data : CalRange) (height : Nat) :
    ∀ (fields : List Field) (col : Nat),
      (∀ f ∈ fields, handledType f.dataType = true) →
      ∃ cols, buildColumns data height col fields = some cols := by
  intro fields
  induction fields with
  | nil => intro col _; exact ⟨[], rfl⟩
  | cons f rest ih =>
    intro col hf
    obtain ⟨arr, harr⟩ :=
      handled_buildColumn_isSome data height col f.dataType (hf f (by simp))
    obtain ⟨tail, htail⟩ := ih (col + 1) (fun g hg => hf g (by simp [hg]))
    exact ⟨(f.name, arr) :: tail, by simp [buildColumns, harr, htail]⟩

/-- C9: every schema produced by `arrow_schema_from_column_names_and_range`
only holds the six datatypes batch assembly handles, so assembling any sheet
carrying such a schema never reaches the catch-all `unreachable!()` arm. -/
theorem c9_inferred_schema_avoids_catch_all (range : CalRange)
    (names : List String) (row_idx : Nat) (schema : List Field) (nm : String)
    (data : CalRange)
    (h : arrow_schema_from_column_names_and_range range names row_idx = .ok schema) :
    tryFromExcelSheet (ExcelSheet.new nm schema data) ≠ RBOutcome.panicked := by
  have hall : ∀ f ∈ schema, handledType f.dataType = true :=
    buildSchemaFields_handled range row_idx names 0 [] schema (by simp) h
  obtain ⟨cols, hcols⟩ :=
    buildColumns_isSome data data.height schema 0 hall
  unfold tryFromExcelSheet
  simp only [ExcelSheet.new]
  rw [hcols]
  cases hrb : recordBatchTryFromIter cols <;> simp [hrb]

/-- Witness for C9: an inferred single-Int64-column schema assembles without
hitting the catch-all arm. -/
theorem c9_inferred_schema_avoids_catch_all_witness :
    tryFromExcelSheet (ExcelSheet.new "w"
      [{ name := "a", dataType := ArrowDataType.Int64, nullable := true }]
      c9Grid) ≠ RBOutcome.panicked :=
  c9_inferred_schema_avoids_catch_all c9Grid ["a"] 1 _ "w" c9Grid rfl

theorem get_bool_eq_some_iff (c : CalDataType) (b : Bool) :
    c.get_bool = some b ↔ c = .Bool b := by
  cases c <;> simp [CalDataType.get_bool]

theorem get_int_eq_some_iff (c : CalDataType) (n : Int) :
    c.get_int = some n ↔ c = .Int n := by
  cases c <;> simp [CalDataType.get_int]

theorem get_float_eq_some_iff (c : CalDataType) (f : F64) :
    c.get_float = some f ↔ c = .Float f := by
  cases c <;> simp [CalDataType.get_float]

theorem get_string_eq_some_iff (c : CalDataType) (s : String) :
    c.get_string = some s ↔ c = .String s := by
  cases c <;> simp [CalDataType.get_string]

theorem as_datetime_eq_some_iff (c : CalDataType) (d : DateTimeValue) :
    c.as_datetime = some d ↔ c = .DateTime d := by
  cases c <;> simp [CalDataType.as_datetime]

theorem dataRows_map_getElem {α : Type} (f : Nat → α) (height i : Nat)
    (h : i < height - 1) : ((dataRows height).map f)[i]? = some (f (1 + i)) := by
  simp [dataRows, List.getElem?_map, List.getElem?_range', h]

/-- C1: materialization is type-exact. At every in-range data-row position of
a materialized column, the element is non-null exactly when the grid cell at
that position exists and matches the column's declared variant, in which case
it carries that cell's value (through `timestamp_millis` on the Timestamp
path); any other variant, and any absent cell, is stored as null. -/
theorem c1_materialization_type_exact (data : CalRange) (col height i : Nat)
    (h : i < height - 1) :
    (∀ b : Bool, (create_boolean_array data col height)[i]? = some (some b) ↔
      data.get (1 + i) col = some (.Bool b)) ∧
    (∀ n : Int, (create_int_array data col height)[i]? = some (some n) ↔
      data.get (1 + i) col = some (.Int n)) ∧
    (∀ f : F64, (create_float_array data col height)[i]? = some (some f) ↔
      data.get (1 + i) col = some (.Float f)) ∧
    (∀ s : String, (create_string_array data col height)[i]? = some (some s) ↔
      data.get (1 + i) col = some (.String s)) ∧
    (∀ m : Int, (create_date_array data col height)[i]? = some (some m) ↔
      ∃ d : DateTimeValue, data.get (1 + i) col = some (.DateTime d) ∧
        d.timestamp_millis = m) := by
  refine ⟨?_, ?_, ?_, ?_, ?_⟩ <;> intro v
  · rw [create_boolean_array, dataRows_map_getElem _ height i h]
    simp [Option.bind_eq_some, get_bool_eq_some_iff]
  · rw [create_int_array, dataRows_map_getElem _ height i h]
    simp [Option.bind_eq_some, get_int_eq_some_iff]
  · rw [create_float_array, dataRows_map_getElem _ height i h]
    simp [Option.bind_eq_some, get_float_eq_some_iff]
  · rw [create_string_array, dataRows_map_getElem _ height i h]
    simp [Option.bind_eq_some, get_string_eq_some_iff]
  · rw [create_date_array, dataRows_map_getElem _ height i h]
    simp [Option.map_eq_some', Option.bind_eq_some, as_datetime_eq_some_iff]
    constructor
    · rintro ⟨a, hga, d, rfl, hm⟩
      exact ⟨d, hga, hm⟩
    · rintro ⟨d, hgd, hm⟩
      exact ⟨.DateTime d, hgd, d, rfl, hm⟩

/-- Witness for C1 at the concrete grid: data-row position 0 (grid row 1)
holds a Bool cell, so the boolean column is non-null there and every other
typed column is null there. -/
theorem c1_materialization_type_exact_witness :
    (0 : Nat) < 4 - 1 ∧
    ((∀ b : Bool, (create_boolean_array c1Grid 0 4)[0]? = some (some b) ↔
      c1Grid.get (1 + 0) 0 = some (.Bool b)) ∧
    (∀ n : Int, (create_int_array c1Grid 0 4)[0]? = some (some n) ↔
      c1Grid.get (1 + 0) 0 = some (.Int n)) ∧
    (∀ f : F64, (create_float_array c1Grid 0 4)[0]? = some (some f) ↔
      c1Grid.get (1 + 0) 0 = some (.Float f)) ∧
    (∀ s : String, (create_string_array c1Grid 0 4)[0]? = some (some s) ↔
      c1Grid.get (1 + 0) 0 = some (.String s)) ∧
    (∀ m : Int, (create_date_array c1Grid 0 4)[0]? = some (some m) ↔
      ∃ d : DateTimeValue, c1Grid.get (1 + 0) 0 = some (.DateTime d) ∧
        d.timestamp_millis = m)) :=
  ⟨by decide, c1_materialization_type_exact c1Grid 0 4 0 (by decide)⟩

/-- C3 evidence: at the concrete sheet whose grid has 0 rows and whose schema
declares one Null-typed column, batch assembly succeeds (in release-mode
`usize` arithmetic) with a column of length `2 ^ 64 - 1` instead of the
claimed `max(height - 1, 0) = 0`; a debug build panics on the same
subtraction. The guarded `ExcelSheet::height` getter shows the intended
convention is 0 for a rowless grid. -/
theorem c3_null_column_length_underflows :
    c3Sheet.data.height = 0 ∧
    tryFromExcelSheet c3Sheet =
      RBOutcome.ok ⟨[("a", ColumnArray.nulls (2 ^ 64 - 1))]⟩ ∧
    (2 ^ 64 - 1 : Nat) ≠ 0 :=
  ⟨rfl, by decide, by decide⟩

/-- Counterexample for C5: at the concrete sheet declaring a Date32 column —
a type outside the set materialization handles — assembly panics; it does not
return an error (structural or otherwise) naming the sheet. -/
theorem c5_unhandled_type_panics :
    tryFromExcelSheet c5Sheet = RBOutcome.panicked ∧
    ∀ msg, tryFromExcelSheet c5Sheet ≠ RBOutcome.err msg := by
  have h : tryFromExcelSheet c5Sheet = RBOutcome.panicked := by decide
  refine ⟨h, fun msg hmsg => ?_⟩
  rw [h] at hmsg
  exact RBOutcome.noConfusion hmsg

/-- C5 (amended): when the materialized arrays' lengths diverge, assembly
returns a structural error whose message names the sheet; but a declared
element type outside the handled set makes assembly panic (abort), not
return an error. -/
theorem c5_assembly_failure_modes (sheet : ExcelSheet) :
    (∀ cols, buildColumns sheet.data sheet.data.height 0 sheet.schema = some cols →
      lengthsMismatch cols →
      tryFromExcelSheet sheet =
        RBOutcome.err ("Could not convert sheet " ++ sheet.name ++
          " to RecordBatch: all columns in a record batch must have the same length")) ∧
    (buildColumns sheet.data sheet.data.height 0 sheet.schema = none →
      tryFromExcelSheet sheet = RBOutcome.panicked) := by
  constructor
  · intro cols hb hm
    have hrb : recordBatchTryFromIter cols =
        .error "all columns in a record batch must have the same length" := by
      rcases cols with _ | ⟨c, rest⟩
      · rcases hm with ⟨p, hp, _⟩
        simp at hp
      · rw [recordBatchTryFromIter]
        cases hall : rest.all (fun x => x.2.len == c.2.len) with
        | false => simp
        | true =>
          exfalso
          rw [List.all_eq_true] at hall
          rcases hm with ⟨p, hp, q, hq, hne⟩
          have hlen : ∀ x ∈ c :: rest, x.2.len = c.2.len := by
            intro x hx
            rcases List.mem_cons.mp hx with hx | hx
            · rw [hx]
            · exact beq_iff_eq.mp (hall x hx)
          exact hne ((hlen p hp).trans (hlen q hq).symm)
    simp only [tryFromExcelSheet, hb, hrb]
    rw [String.append_assoc]
    rfl
  · intro hb
    simp only [tryFromExcelSheet, hb]

/-- Witness for the amended C5: on the concrete sheet mixing a Null column
(wrapped length) with an Int column over a rowless grid, assembly returns the
sheet-naming structural error. -/
theorem c5_assembly_failure_modes_witness :
    tryFromExcelSheet c5DivSheet =
      RBOutcome.err ("Could not convert sheet " ++ c5DivSheet.name ++
        " to RecordBatch: all columns in a record batch must have the same length") :=
  (c5_assembly_failure_modes c5DivSheet).1
    [("a", ColumnArray.nulls (2 ^ 64 - 1)), ("b", ColumnArray.ints [])]
    (by decide)
    ⟨("a", ColumnArray.nulls (2 ^ 64 - 1)), by simp,
     ("b", ColumnArray.ints []), by simp, by decide⟩

/-- C7: the height getter reports the grid's row count minus the header row,
guarded to 0 for a rowless grid (no negative or wrapped value is possible),
and a second call to either memoizing getter returns the same value as the
first. -/
theorem c7_height_width_memoized (nm : String) (schema : List Field)
    (data : CalRange) (s : ExcelSheet) :
    ((ExcelSheet.new nm schema data).height).1 =
      (if data.height > 0 then data.height - 1 else 0) ∧
    ((s.height.2).height).1 = (s.height).1 ∧
    ((s.width.2).width).1 = (s.width).1 := by
  refine ⟨rfl, ?_, ?_⟩
  · cases hc : s.heightCache with
    | some h => simp [ExcelSheet.height, hc]
    | none => simp [ExcelSheet.height, hc]
  · cases hc : s.widthCache with
    | some w => simp [ExcelSheet.width, hc]
    | none => simp [ExcelSheet.width, hc]

/-- C8: on every workbook container that is not the Xlsx variant, both table
listing and table-range resolution answer with the Internal error naming the
XLSX-only limitation, and neither returns any table names or range. -/
theorem c8_non_xlsx_tables_unsupported (sheets : Sheets) (sheet_name : Option String)
    (tname : String) (h : ∀ x, sheets ≠ Sheets.Xlsx x) :
    extract_table_names sheets sheet_name =
      .ok (.error ⟨.Internal "Currently only XLSX files are supported for tables", []⟩) ∧
    extract_table_range tname sheets =
      .ok (.error ⟨.Internal "Currently only XLSX files are supported for tables", []⟩) := by
  cases sheets with
  | Xlsx x => exact absurd rfl (h x)
  | Xls => exact ⟨rfl, rfl⟩
  | Xlsb => exact ⟨rfl, rfl⟩
  | Ods => exact ⟨rfl, rfl⟩

/-- Witness for C8 on the Xls container variant. -/
theorem c8_non_xlsx_tables_unsupported_witness :
    extract_table_names Sheets.Xls none =
      .ok (.error ⟨.Internal "Currently only XLSX files are supported for tables", []⟩) ∧
    extract_table_range "t" Sheets.Xls =
      .ok (.error ⟨.Internal "Currently only XLSX files are supported for tables", []⟩) :=
  c8_non_xlsx_tables_unsupported Sheets.Xls none "t" (fun x hx => nomatch hx)

end FastExcel
